import Mathlib

/-!
Verification of the escape-decoding core of `unicode_decoder.py`.

Strings are embedded as lists of Unicode code points (`List Nat`), so that
Python's `chr` (which accepts every code point up to `0x10FFFF`, surrogates
included) can be modelled exactly.  Each regex pass of
`decode_unicode_escapes` is embedded as a left-to-right scan that replaces
leftmost non-overlapping matches, which is precisely what `re.sub` does for
these fixed-width patterns, and `str.replace` is embedded the same way.
-/

/-- `isHexDigit c` holds when `c` is the code point of `0-9`, `a-f` or `A-F`,
the character class `[0-9a-fA-F]` of the two regexes. -/
def isHexDigit (c : Nat) : Bool :=
  (48 ≤ c && c ≤ 57) || (97 ≤ c && c ≤ 102) || (65 ≤ c && c ≤ 70)

/-- Numeric value of one hex digit (as `int(.., 16)` reads it). -/
def hexDigitVal (c : Nat) : Nat :=
  if c ≤ 57 then c - 48 else if c ≤ 70 then c - 55 else c - 87

/-- Value of the four captured digits of a `\uXXXX` match, `int(hex_val, 16)`. -/
def hexVal4 (d1 d2 d3 d4 : Nat) : Nat :=
  hexDigitVal d1 * 4096 + hexDigitVal d2 * 256 + hexDigitVal d3 * 16 + hexDigitVal d4

/-- Value of the two captured digits of a `\xXX` match, `int(hex_val, 16)`. -/
def hexVal2 (d1 d2 : Nat) : Nat :=
  hexDigitVal d1 * 16 + hexDigitVal d2

/-- Python's `chr`: returns the character with the given code point, raising
`ValueError` (modelled as `Except.error ()`) above `0x10FFFF`. -/
def pyChr (n : Nat) : Except Unit Nat :=
  if n < 1114112 then Except.ok n else Except.error ()

/-- The `try` body of `replace_unicode` with no handler:
`chr(int(hex_val, 16))`, an error propagating. -/
def replace_unicode_body (d1 d2 d3 d4 : Nat) : Except Unit (List Nat) :=
  (pyChr (hexVal4 d1 d2 d3 d4)).map (fun c => [c])

/-- The `try` body of `replace_hex` with no handler. -/
def replace_hex_body (d1 d2 : Nat) : Except Unit (List Nat) :=
  (pyChr (hexVal2 d1 d2)).map (fun c => [c])

/-- The bare `except` of the two replacement callbacks: a failing body is
answered with the original matched text `match.group(0)`. -/
def tryMatch (body : Except Unit (List Nat)) (orig : List Nat) : List Nat :=
  match body with
  | Except.ok r => r
  | Except.error _ => orig

/-- The callback `replace_unicode` of the `\uXXXX` pass: try
`chr(int(hex_val, 16))`, and on any error keep `match.group(0)`. -/
def replace_unicode (d1 d2 d3 d4 : Nat) : List Nat :=
  tryMatch (replace_unicode_body d1 d2 d3 d4) [92, 117, d1, d2, d3, d4]

/-- The callback `replace_hex` of the `\xXX` pass. -/
def replace_hex (d1 d2 : Nat) : List Nat :=
  tryMatch (replace_hex_body d1 d2) [92, 120, d1, d2]

/-- `re.sub(r'\\u([0-9a-fA-F]{4})', replace_unicode, s)`: scan left to right,
replace each leftmost match of backslash, `u`, four hex digits, and resume
after it; on a non-match advance one character. -/
def substU : List Nat → List Nat
  | 92 :: 117 :: d1 :: d2 :: d3 :: d4 :: rest =>
      if isHexDigit d1 && isHexDigit d2 && isHexDigit d3 && isHexDigit d4 then
        replace_unicode d1 d2 d3 d4 ++ substU rest
      else
        92 :: substU (117 :: d1 :: d2 :: d3 :: d4 :: rest)
  | c :: rest => c :: substU rest
  | [] => []

/-- `re.sub(r'\\x([0-9a-fA-F]{2})', replace_hex, s)`. -/
def substX : List Nat → List Nat
  | 92 :: 120 :: d1 :: d2 :: rest =>
      if isHexDigit d1 && isHexDigit d2 then
        replace_hex d1 d2 ++ substX rest
      else
        92 :: substX (120 :: d1 :: d2 :: rest)
  | c :: rest => c :: substX rest
  | [] => []

/-- `s.replace('\\/', '/')`: left-to-right non-overlapping replacement of the
two-character sequence backslash, slash by a slash. -/
def replaceSlash : List Nat → List Nat
  | 92 :: 47 :: rest => 47 :: replaceSlash rest
  | c :: rest => c :: replaceSlash rest
  | [] => []

/-- `hasPair a b s` is Python's `ab in s` for the two-character substring
`[a, b]`, used by the three guards of `decode_unicode_escapes`. -/
def hasPair (a b : Nat) : List Nat → Bool
  | x :: y :: rest => (x == a && y == b) || hasPair a b (y :: rest)
  | _ => false

/-- Step 1 of `decode_unicode_escapes`: the `\uXXXX` substitution, guarded by
`if '\u' in text`. -/
def passU (t : List Nat) : List Nat :=
  if hasPair 92 117 t then substU t else t

/-- Step 2 of `decode_unicode_escapes`: the `\xXX` substitution, guarded by
`if '\x' in decoded`. -/
def passX (t : List Nat) : List Nat :=
  if hasPair 92 120 t then substX t else t

/-- Step 3 of `decode_unicode_escapes`: the escaped-slash replacement, guarded
by `if '\/' in decoded`. -/
def passSlash (t : List Nat) : List Nat :=
  if hasPair 92 47 t then replaceSlash t else t

/-- `decode_unicode_escapes(text)` of `unicode_decoder.py`: the `\uXXXX` pass,
then the `\xXX` pass, then the escaped-slash replacement, each applied once in
this fixed order; control escapes (clause 4 of the source) are never touched. -/
def decode_unicode_escapes (text : List Nat) : List Nat :=
  passSlash (passX (passU text))

/-- The change test of `process_file`: `decoded_content == content`, negated.
`changedFlag content = true` exactly when decoding altered the text. -/
def changedFlag (content : List Nat) : Bool :=
  !(decode_unicode_escapes content == content)

/-- Every backslash of `s` is immediately followed by `n`, `r` or `t`: the
text consists of ordinary characters and control-character escapes only. -/
def ctlEscapesOnly : List Nat → Bool
  | [] => true
  | 92 :: c :: rest => (c == 110 || c == 114 || c == 116) && ctlEscapesOnly rest
  | [92] => false
  | _ :: rest => ctlEscapesOnly rest

/-- The `\uXXXX` regex matches at the head of the list. -/
def headUMatch : List Nat → Bool
  | 92 :: 117 :: d1 :: d2 :: d3 :: d4 :: _ =>
      isHexDigit d1 && isHexDigit d2 && isHexDigit d3 && isHexDigit d4
  | _ => false

/-- The `\uXXXX` regex matches somewhere in the list. -/
def hasUEscape : List Nat → Bool
  | [] => false
  | c :: rest => headUMatch (c :: rest) || hasUEscape rest

/-- The `\xXX` regex matches at the head of the list. -/
def headXMatch : List Nat → Bool
  | 92 :: 120 :: d1 :: d2 :: _ => isHexDigit d1 && isHexDigit d2
  | _ => false

/-- The `\xXX` regex matches somewhere in the list. -/
def hasXEscape : List Nat → Bool
  | [] => false
  | c :: rest => headXMatch (c :: rest) || hasXEscape rest

/-! Exception-level model for the failure-semantics claim: each regex pass is
re-expressed with the per-match handler stripped, so that an error raised by a
replacement (`chr` on an out-of-range code point) would propagate out of
`re.sub`; `decodeE` then wraps each pass in the pass-level handler of the
source (`except` printing a warning and keeping the text). -/

/-- The `\uXXXX` pass with the per-match `try/except` removed: a replacement
error aborts the whole substitution. -/
def substUE : List Nat → Except Unit (List Nat)
  | 92 :: 117 :: d1 :: d2 :: d3 :: d4 :: rest =>
      if isHexDigit d1 && isHexDigit d2 && isHexDigit d3 && isHexDigit d4 then
        Except.bind (replace_unicode_body d1 d2 d3 d4) (fun r =>
          Except.bind (substUE rest) (fun t => Except.ok (r ++ t)))
      else
        Except.bind (substUE (117 :: d1 :: d2 :: d3 :: d4 :: rest))
          (fun t => Except.ok (92 :: t))
  | c :: rest => Except.bind (substUE rest) (fun t => Except.ok (c :: t))
  | [] => Except.ok []

/-- The `\xXX` pass with the per-match `try/except` removed. -/
def substXE : List Nat → Except Unit (List Nat)
  | 92 :: 120 :: d1 :: d2 :: rest =>
      if isHexDigit d1 && isHexDigit d2 then
        Except.bind (replace_hex_body d1 d2) (fun r =>
          Except.bind (substXE rest) (fun t => Except.ok (r ++ t)))
      else
        Except.bind (substXE (120 :: d1 :: d2 :: rest))
          (fun t => Except.ok (92 :: t))
  | c :: rest => Except.bind (substXE rest) (fun t => Except.ok (c :: t))
  | [] => Except.ok []

/-- `decode_unicode_escapes` at the exception level: each regex pass runs
under its pass-level handler (a bare `except` that keeps the text, modelled
by `tryMatch`), the slash replacement cannot raise, and the function returns
normally to its caller. -/
def decodeE (text : List Nat) : Except Unit (List Nat) :=
  let d1 := if hasPair 92 117 text then tryMatch (substUE text) text else text
  let d2 := if hasPair 92 120 d1 then tryMatch (substXE d1) d1 else d1
  Except.ok (if hasPair 92 47 d2 then replaceSlash d2 else d2)

/-! Model of the file pipeline: `process_file` and the counting loop of
`main`.  A file is abstracted to its stem, its suffix and a `FileEvent`:
either its content was read successfully, or some step of processing it
(read, decode-encoding, write) raised.  `process_file` returns, besides the
write it performs, the Python value returned to `main`; the type `PyVal` has
a third element `pyNone` because `main` distinguishes `result is True`,
`result is False` and everything else. -/

/-- The values `main` discriminates: `True`, `False`, anything else. -/
inductive PyVal where
  | pyTrue : PyVal
  | pyFalse : PyVal
  | pyNone : PyVal
deriving DecidableEq

/-- One file as `process_file` sees it: either its text was obtained, or a
read/write/encoding error was raised somewhere in the `try` block. -/
inductive FileEvent where
  | content : List Nat → FileEvent
  | ioError : FileEvent
deriving DecidableEq

/-- A sibling file written by `process_file`: its name and its text. -/
structure WriteOp where
  path : List Nat
  text : List Nat
deriving DecidableEq

/-- The marker `_decoded` (code points of `_decoded`), inserted by
`process_file` into output names and looked for by `main`'s filter
`'_decoded' in file_path.stem`. -/
def decodedMarker : List Nat := [95, 100, 101, 99, 111, 100, 101, 100]

/-- The marker `-decoded` with a hyphen, as the specification text spells it. -/
def hyphenMarker : List Nat := [45, 100, 101, 99, 111, 100, 101, 100]

/-- Base name of the sibling file: `f"{stem}_decoded"` before the suffix. -/
def outStem (stem : List Nat) : List Nat := stem ++ decodedMarker

/-- `process_file(file_path)`: on an exception anywhere in the `try` block it
prints `[ERROR]` and returns `False`; otherwise it decodes the content,
returns `False` writing nothing when the text is unchanged (`[SKIP]`), and
otherwise writes `f"{stem}_decoded{suffix}"` and returns `True`. -/
def process_file (stem suffix : List Nat) : FileEvent → Option WriteOp × PyVal
  | FileEvent.ioError => (none, PyVal.pyFalse)
  | FileEvent.content text =>
      if decode_unicode_escapes text == text then (none, PyVal.pyFalse)
      else (some ⟨outStem stem ++ suffix, decode_unicode_escapes text⟩, PyVal.pyTrue)

/-- The running counters of `main`. -/
structure Tally where
  processed : Nat
  skipped : Nat
  errors : Nat
deriving DecidableEq

/-- One iteration of `main`'s loop: `result is True` counts as processed,
`result is False` as skipped, anything else as an error. -/
def tallyStep (t : Tally) : PyVal → Tally
  | PyVal.pyTrue => ⟨t.processed + 1, t.skipped, t.errors⟩
  | PyVal.pyFalse => ⟨t.processed, t.skipped + 1, t.errors⟩
  | PyVal.pyNone => ⟨t.processed, t.skipped, t.errors + 1⟩

/-- `main`'s loop over the selected files, starting from zero counters. -/
def runMain (files : List (List Nat × List Nat × FileEvent)) : Tally :=
  files.foldl (fun t f => tallyStep t (process_file f.1 f.2.1 f.2.2).2) ⟨0, 0, 0⟩

/-- Boolean test that `pat` starts the list `s`. -/
def startsWith : List Nat → List Nat → Bool
  | [], _ => true
  | _ :: _, [] => false
  | p :: ps, c :: cs => p == c && startsWith ps cs

/-- Python's substring test `pat in s`. -/
def containsSub (pat : List Nat) : List Nat → Bool
  | [] => pat.isEmpty
  | c :: rest => startsWith pat (c :: rest) || containsSub pat rest

/-- `main`'s filter `'_decoded' in file_path.stem`: a candidate whose stem
passes this test is skipped. -/
def skipCheck (stem : List Nat) : Bool := containsSub decodedMarker stem

/-- The nine characters of `\x41`: a `\uXXXX` escape whose value is the
backslash, followed by `x41`. -/
def uInput : List Nat := [92, 117, 48, 48, 53, 99, 120, 52, 49]

/-- The six characters of `\uZZZZ`: a backslash-u span with invalid digits. -/
def uzzzz : List Nat := [92, 117, 90, 90, 90, 90]

/-- The twelve characters of `line1\nline2` with a literal backslash. -/
def line1nline2 : List Nat := [108, 105, 110, 101, 49, 92, 110, 108, 105, 110, 101, 50]

/-! Helper lemmas, then the claim theorems. -/

theorem hasPair_tail (a b c : Nat) (rest : List Nat)
    (h : hasPair a b (c :: rest) = false) : hasPair a b rest = false := by
  cases rest with
  | nil => rfl
  | cons y r =>
      simp only [hasPair, Bool.or_eq_false_iff] at h
      exact h.2

theorem hasPair_cons_of_ne {a c : Nat} (b : Nat) (h : c ≠ a) (rest : List Nat) :
    hasPair a b (c :: rest) = hasPair a b rest := by
  cases rest with
  | nil => simp [hasPair]
  | cons y r => simp [hasPair, h]

theorem substU_of_no_pair (s : List Nat) (h : hasPair 92 117 s = false) :
    substU s = s := by
  induction s using substU.induct with
  | case1 d1 d2 d3 d4 rest hhex ih => simp [hasPair] at h
  | case2 d1 d2 d3 d4 rest hhex ih => simp [hasPair] at h
  | case3 c rest h1 ih =>
      rw [substU.eq_2 c rest h1, ih (hasPair_tail _ _ _ _ h)]
  | case4 => rfl

theorem substX_of_no_pair (s : List Nat) (h : hasPair 92 120 s = false) :
    substX s = s := by
  induction s using substX.induct with
  | case1 d1 d2 rest hhex ih => simp [hasPair] at h
  | case2 d1 d2 rest hhex ih => simp [hasPair] at h
  | case3 c rest h1 ih =>
      rw [substX.eq_2 c rest h1, ih (hasPair_tail _ _ _ _ h)]
  | case4 => rfl

theorem replaceSlash_of_no_pair (s : List Nat) (h : hasPair 92 47 s = false) :
    replaceSlash s = s := by
  induction s using replaceSlash.induct with
  | case1 rest ih => simp [hasPair] at h
  | case2 c rest h1 ih =>
      rw [replaceSlash.eq_2 c rest h1, ih (hasPair_tail _ _ _ _ h)]
  | case3 => rfl

theorem passU_eq_substU (t : List Nat) : passU t = substU t := by
  unfold passU
  by_cases h : hasPair 92 117 t
  · rw [if_pos h]
  · rw [if_neg h, substU_of_no_pair t (by simpa using h)]

theorem passX_eq_substX (t : List Nat) : passX t = substX t := by
  unfold passX
  by_cases h : hasPair 92 120 t
  · rw [if_pos h]
  · rw [if_neg h, substX_of_no_pair t (by simpa using h)]

theorem passSlash_eq_replaceSlash (t : List Nat) : passSlash t = replaceSlash t := by
  unfold passSlash
  by_cases h : hasPair 92 47 t
  · rw [if_pos h]
  · rw [if_neg h, replaceSlash_of_no_pair t (by simpa using h)]

theorem decode_eq_passes (s : List Nat) :
    decode_unicode_escapes s = replaceSlash (substX (substU s)) := by
  unfold decode_unicode_escapes
  rw [passU_eq_substU, passX_eq_substX, passSlash_eq_replaceSlash]

theorem changedFlag_false_iff (s : List Nat) :
    changedFlag s = false ↔ decode_unicode_escapes s = s := by
  simp [changedFlag]

theorem hasUEscape_tail (c : Nat) (rest : List Nat)
    (h : hasUEscape (c :: rest) = false) : hasUEscape rest = false := by
  simp only [hasUEscape, Bool.or_eq_false_iff] at h
  exact h.2

theorem hasXEscape_tail (c : Nat) (rest : List Nat)
    (h : hasXEscape (c :: rest) = false) : hasXEscape rest = false := by
  simp only [hasXEscape, Bool.or_eq_false_iff] at h
  exact h.2

theorem substU_of_no_uescape (s : List Nat) (h : hasUEscape s = false) :
    substU s = s := by
  induction s using substU.induct with
  | case1 d1 d2 d3 d4 rest hhex ih =>
      simp [hasUEscape, headUMatch, hhex] at h
  | case2 d1 d2 d3 d4 rest hhex ih =>
      rw [substU.eq_1, if_neg hhex, ih (hasUEscape_tail _ _ h)]
  | case3 c rest h1 ih =>
      rw [substU.eq_2 c rest h1, ih (hasUEscape_tail _ _ h)]
  | case4 => rfl

theorem substX_of_no_xescape (s : List Nat) (h : hasXEscape s = false) :
    substX s = s := by
  induction s using substX.induct with
  | case1 d1 d2 rest hhex ih =>
      simp [hasXEscape, headXMatch, hhex] at h
  | case2 d1 d2 rest hhex ih =>
      rw [substX.eq_1, if_neg hhex, ih (hasXEscape_tail _ _ h)]
  | case3 c rest h1 ih =>
      rw [substX.eq_2 c rest h1, ih (hasXEscape_tail _ _ h)]
  | case4 => rfl

theorem hasPair_of_not_mem (b : Nat) (s : List Nat) (h : ¬ 92 ∈ s) :
    hasPair 92 b s = false := by
  induction s with
  | nil => rfl
  | cons c rest ih =>
      have hc : c ≠ 92 := fun hce => h (hce ▸ List.mem_cons_self c rest)
      rw [hasPair_cons_of_ne b hc rest]
      exact ih (fun hm => h (List.mem_cons_of_mem c hm))

theorem decode_id_of_no_pairs (s : List Nat)
    (h1 : hasPair 92 117 s = false) (h2 : hasPair 92 120 s = false)
    (h3 : hasPair 92 47 s = false) : decode_unicode_escapes s = s := by
  rw [decode_eq_passes, substU_of_no_pair s h1, substX_of_no_pair s h2,
    replaceSlash_of_no_pair s h3]

theorem hasPair_of_ctl (b : Nat) (hb1 : b ≠ 110) (hb2 : b ≠ 114) (hb3 : b ≠ 116)
    (s : List Nat) (h : ctlEscapesOnly s = true) : hasPair 92 b s = false := by
  induction s using ctlEscapesOnly.induct with
  | case1 => rfl
  | case2 c rest ih =>
      simp only [ctlEscapesOnly, Bool.and_eq_true] at h
      have hc : (c = 110 ∨ c = 114) ∨ c = 116 := by
        have h1 := h.1
        simp only [Bool.or_eq_true, beq_iff_eq] at h1
        exact h1
      have hcb : c ≠ b := by omega
      have hc92 : c ≠ 92 := by omega
      cases rest with
      | nil => simp [hasPair, hcb]
      | cons y r => simp [hasPair, hcb, hc92, ih h.2]
  | case3 => simp [ctlEscapesOnly] at h
  | case4 c rest h1 h2 ih =>
      have hc92 : c ≠ 92 := by
        intro hce
        cases rest with
        | nil => exact h2 hce rfl
        | cons y r => exact h1 y r hce rfl
      rw [hasPair_cons_of_ne b hc92 rest]
      exact ih (by rw [ctlEscapesOnly.eq_4 c rest h1 h2] at h; exact h)

theorem replace_unicode_length_le (d1 d2 d3 d4 : Nat) :
    (replace_unicode d1 d2 d3 d4).length ≤ 6 := by
  unfold replace_unicode tryMatch replace_unicode_body pyChr
  split
  · rename_i r hr
    split at hr
    · simp only [Except.map, Except.ok.injEq] at hr
      subst hr
      simp
    · simp [Except.map] at hr
  · simp

theorem replace_hex_length_le (d1 d2 : Nat) :
    (replace_hex d1 d2).length ≤ 4 := by
  unfold replace_hex tryMatch replace_hex_body pyChr
  split
  · rename_i r hr
    split at hr
    · simp only [Except.map, Except.ok.injEq] at hr
      subst hr
      simp
    · simp [Except.map] at hr
  · simp

theorem substU_length_le (s : List Nat) : (substU s).length ≤ s.length := by
  induction s using substU.induct with
  | case1 d1 d2 d3 d4 rest hhex ih =>
      rw [substU.eq_1, if_pos hhex]
      have h := replace_unicode_length_le d1 d2 d3 d4
      simp only [List.length_append, List.length_cons]
      omega
  | case2 d1 d2 d3 d4 rest hhex ih =>
      rw [substU.eq_1, if_neg hhex]
      simp only [List.length_cons] at ih ⊢
      omega
  | case3 c rest h1 ih =>
      rw [substU.eq_2 c rest h1]
      simp only [List.length_cons]
      omega
  | case4 => simp [substU]

theorem substX_length_le (s : List Nat) : (substX s).length ≤ s.length := by
  induction s using substX.induct with
  | case1 d1 d2 rest hhex ih =>
      rw [substX.eq_1, if_pos hhex]
      have h := replace_hex_length_le d1 d2
      simp only [List.length_append, List.length_cons]
      omega
  | case2 d1 d2 rest hhex ih =>
      rw [substX.eq_1, if_neg hhex]
      simp only [List.length_cons] at ih ⊢
      omega
  | case3 c rest h1 ih =>
      rw [substX.eq_2 c rest h1]
      simp only [List.length_cons]
      omega
  | case4 => simp [substX]

theorem replaceSlash_length_le (s : List Nat) :
    (replaceSlash s).length ≤ s.length := by
  induction s using replaceSlash.induct with
  | case1 rest ih =>
      rw [replaceSlash.eq_1]
      simp only [List.length_cons]
      omega
  | case2 c rest h1 ih =>
      rw [replaceSlash.eq_2 c rest h1]
      simp only [List.length_cons]
      omega
  | case3 => simp [replaceSlash]

theorem hexDigitVal_le (c : Nat) (h : isHexDigit c = true) : hexDigitVal c ≤ 15 := by
  simp only [isHexDigit, Bool.or_eq_true, Bool.and_eq_true, decide_eq_true_eq] at h
  unfold hexDigitVal
  rcases h with (⟨ha, hb⟩ | ⟨ha, hb⟩) | ⟨ha, hb⟩ <;> split_ifs <;> omega

theorem pyChr_hexVal4_ok (d1 d2 d3 d4 : Nat) (h1 : isHexDigit d1 = true)
    (h2 : isHexDigit d2 = true) (h3 : isHexDigit d3 = true)
    (h4 : isHexDigit d4 = true) :
    pyChr (hexVal4 d1 d2 d3 d4) = Except.ok (hexVal4 d1 d2 d3 d4) := by
  have e1 := hexDigitVal_le d1 h1
  have e2 := hexDigitVal_le d2 h2
  have e3 := hexDigitVal_le d3 h3
  have e4 := hexDigitVal_le d4 h4
  unfold pyChr hexVal4
  rw [if_pos (by omega)]

theorem pyChr_hexVal2_ok (d1 d2 : Nat) (h1 : isHexDigit d1 = true)
    (h2 : isHexDigit d2 = true) :
    pyChr (hexVal2 d1 d2) = Except.ok (hexVal2 d1 d2) := by
  have e1 := hexDigitVal_le d1 h1
  have e2 := hexDigitVal_le d2 h2
  unfold pyChr hexVal2
  rw [if_pos (by omega)]

theorem replace_unicode_body_ok (d1 d2 d3 d4 : Nat) (h1 : isHexDigit d1 = true)
    (h2 : isHexDigit d2 = true) (h3 : isHexDigit d3 = true)
    (h4 : isHexDigit d4 = true) :
    replace_unicode_body d1 d2 d3 d4 = Except.ok [hexVal4 d1 d2 d3 d4] := by
  unfold replace_unicode_body
  rw [pyChr_hexVal4_ok d1 d2 d3 d4 h1 h2 h3 h4]
  rfl

theorem replace_hex_body_ok (d1 d2 : Nat) (h1 : isHexDigit d1 = true)
    (h2 : isHexDigit d2 = true) :
    replace_hex_body d1 d2 = Except.ok [hexVal2 d1 d2] := by
  unfold replace_hex_body
  rw [pyChr_hexVal2_ok d1 d2 h1 h2]
  rfl

theorem substUE_ok (s : List Nat) : substUE s = Except.ok (substU s) := by
  induction s using substU.induct with
  | case1 d1 d2 d3 d4 rest hhex ih =>
      simp only [Bool.and_eq_true] at hhex
      rw [substUE.eq_1, substU.eq_1]
      rw [if_pos (by simp [hhex.1.1.1, hhex.1.1.2, hhex.1.2, hhex.2]),
        if_pos (by simp [hhex.1.1.1, hhex.1.1.2, hhex.1.2, hhex.2])]
      rw [replace_unicode_body_ok d1 d2 d3 d4 hhex.1.1.1 hhex.1.1.2 hhex.1.2 hhex.2, ih]
      simp only [Except.bind]
      rw [show replace_unicode d1 d2 d3 d4 = [hexVal4 d1 d2 d3 d4] from by
        unfold replace_unicode
        rw [replace_unicode_body_ok d1 d2 d3 d4 hhex.1.1.1 hhex.1.1.2 hhex.1.2 hhex.2]
        rfl]
  | case2 d1 d2 d3 d4 rest hhex ih =>
      rw [substUE.eq_1, substU.eq_1, if_neg hhex, if_neg hhex, ih]
      simp only [Except.bind]
  | case3 c rest h1 ih =>
      rw [substUE.eq_2 c rest h1, substU.eq_2 c rest h1, ih]
      simp only [Except.bind]
  | case4 => rfl

theorem substXE_ok (s : List Nat) : substXE s = Except.ok (substX s) := by
  induction s using substX.induct with
  | case1 d1 d2 rest hhex ih =>
      simp only [Bool.and_eq_true] at hhex
      rw [substXE.eq_1, substX.eq_1]
      rw [if_pos (by simp [hhex.1, hhex.2]), if_pos (by simp [hhex.1, hhex.2])]
      rw [replace_hex_body_ok d1 d2 hhex.1 hhex.2, ih]
      simp only [Except.bind]
      rw [show replace_hex d1 d2 = [hexVal2 d1 d2] from by
        unfold replace_hex
        rw [replace_hex_body_ok d1 d2 hhex.1 hhex.2]
        rfl]
  | case2 d1 d2 rest hhex ih =>
      rw [substXE.eq_1, substX.eq_1, if_neg hhex, if_neg hhex, ih]
      simp only [Except.bind]
  | case3 c rest h1 ih =>
      rw [substXE.eq_2 c rest h1, substX.eq_2 c rest h1, ih]
      simp only [Except.bind]
  | case4 => rfl

theorem decodeE_eq_ok (s : List Nat) :
    decodeE s = Except.ok (decode_unicode_escapes s) := by
  unfold decodeE decode_unicode_escapes passU passX passSlash
  by_cases h1 : hasPair 92 117 s
  · simp only [h1, if_true, substUE_ok, tryMatch, substXE_ok]
  · simp only [h1, Bool.false_eq_true, if_false, substXE_ok, tryMatch]

theorem startsWith_append (p t : List Nat) : startsWith p (p ++ t) = true := by
  induction p with
  | nil => rfl
  | cons c cs ih => simp [startsWith, ih]

theorem containsSub_suffix (pat pre : List Nat) (h : pat ≠ []) :
    containsSub pat (pre ++ pat) = true := by
  induction pre with
  | nil =>
      cases pat with
      | nil => exact absurd rfl h
      | cons c cs =>
          simp only [List.nil_append, containsSub, Bool.or_eq_true]
          refine Or.inl ?_
          have := startsWith_append (c :: cs) []
          simpa using this
  | cons c cs ih =>
      simp only [List.cons_append, containsSub, Bool.or_eq_true]
      exact Or.inr ih

/-- Claim C1 is false as stated: on `\x41`, whose original text contains
no `\xXX` match and no escaped slash, the `\uXXXX` pass materializes a
backslash (its output is `\x41`), and the `\xXX` pass of the same call then
consumes that backslash, so the final output `A` differs from the output of
the first pass. -/
theorem cross_pass_reinterpretation :
    hasXEscape uInput = false ∧ hasPair 92 47 uInput = false ∧
    substU uInput = [92, 120, 52, 49] ∧
    decode_unicode_escapes uInput = [65] ∧
    decode_unicode_escapes uInput ≠ substU uInput := by decide

/-- Claim C1 (amended): each escape family is scanned and replaced exactly
once per invocation — `decode_unicode_escapes` is one application of the
`\uXXXX` pass, then one of the `\xXX` pass, then one of the slash pass, with
no fixpoint looping — but a backslash materialized by an earlier pass can be
consumed by a later pass of the same call, as on `\x41`, which decodes
to `A`. -/
theorem single_pass_per_family :
    (∀ s : List Nat, decode_unicode_escapes s = replaceSlash (substX (substU s))) ∧
    decode_unicode_escapes uInput = [65] :=
  ⟨decode_eq_passes, by decide⟩

theorem replace_unicode_val (d1 d2 d3 d4 : Nat) (h1 : isHexDigit d1 = true)
    (h2 : isHexDigit d2 = true) (h3 : isHexDigit d3 = true)
    (h4 : isHexDigit d4 = true) :
    replace_unicode d1 d2 d3 d4 = [hexVal4 d1 d2 d3 d4] := by
  unfold replace_unicode
  rw [replace_unicode_body_ok d1 d2 d3 d4 h1 h2 h3 h4]
  rfl

theorem replace_hex_val (d1 d2 : Nat) (h1 : isHexDigit d1 = true)
    (h2 : isHexDigit d2 = true) : replace_hex d1 d2 = [hexVal2 d1 d2] := by
  unfold replace_hex
  rw [replace_hex_body_ok d1 d2 h1 h2]
  rfl

/-- Claim C2: `decode_unicode_escapes` equals the composition of exactly three
sequential transformations in this fixed order — the `\uXXXX` substitution,
then the `\xXX` substitution, then the plain global replacement of
backslash-slash by slash; a span of backslash-u and four case-insensitive hex
digits is replaced by the single character whose code point is the digits'
value (a 16-bit value), and a span of backslash-x and two hex digits by the
character with that code point. -/
theorem decode_is_three_fixed_passes :
    (∀ s : List Nat, decode_unicode_escapes s = replaceSlash (substX (substU s))) ∧
    (∀ d1 d2 d3 d4 : Nat, isHexDigit d1 = true → isHexDigit d2 = true →
      isHexDigit d3 = true → isHexDigit d4 = true →
      replace_unicode d1 d2 d3 d4 = [hexVal4 d1 d2 d3 d4] ∧
        hexVal4 d1 d2 d3 d4 < 65536) ∧
    (∀ d1 d2 : Nat, isHexDigit d1 = true → isHexDigit d2 = true →
      replace_hex d1 d2 = [hexVal2 d1 d2]) := by
  refine ⟨decode_eq_passes, ?_, ?_⟩
  · intro d1 d2 d3 d4 h1 h2 h3 h4
    refine ⟨replace_unicode_val d1 d2 d3 d4 h1 h2 h3 h4, ?_⟩
    have e1 := hexDigitVal_le d1 h1
    have e2 := hexDigitVal_le d2 h2
    have e3 := hexDigitVal_le d3 h3
    have e4 := hexDigitVal_le d4 h4
    unfold hexVal4
    omega
  · exact replace_hex_val

/-- Witness for C2 at `A` and `\x41`: the matched digits give `A`. -/
theorem decode_is_three_fixed_passes_witness :
    (isHexDigit 48 = true ∧ isHexDigit 52 = true ∧ isHexDigit 49 = true) ∧
    decode_unicode_escapes [92, 117, 48, 48, 52, 49] =
      replaceSlash (substX (substU [92, 117, 48, 48, 52, 49])) ∧
    replace_unicode 48 48 52 49 = [hexVal4 48 48 52 49] ∧
    replace_hex 52 49 = [hexVal2 52 49] :=
  ⟨by decide,
    decode_is_three_fixed_passes.1 [92, 117, 48, 48, 52, 49],
    (decode_is_three_fixed_passes.2.1 48 48 52 49 (by decide) (by decide)
      (by decide) (by decide)).1,
    decode_is_three_fixed_passes.2.2 52 49 (by decide) (by decide)⟩

/-- Claim C3: the code contradicts the claimed tally.  `process_file` does
catch a per-file failure and reports `[ERROR]`, but its `except` branch
returns `False`, so `main`'s `elif result is False` counts the failed file in
the skipped tally; the `else` branch incrementing the error tally never runs:
over any sequence of files the error counter keeps its value, and one failing
file yields 0 processed, 1 skipped, 0 errors. -/
theorem error_tallied_as_skipped :
    (∀ (stem suffix : List Nat) (t : Tally) (e : FileEvent),
      (tallyStep t (process_file stem suffix e).2).errors = t.errors) ∧
    (∀ stem suffix : List Nat,
      runMain [(stem, suffix, FileEvent.ioError)] = ⟨0, 1, 0⟩) := by
  constructor
  · intro stem suffix t e
    cases e with
    | ioError => rfl
    | content text =>
        simp only [process_file]
        split <;> rfl
  · intro stem suffix
    rfl

/-- Claim C4: a string with no backslash decodes to itself and the change
flag is false. -/
theorem decode_id_of_no_backslash (s : List Nat) (h : ¬ 92 ∈ s) :
    decode_unicode_escapes s = s ∧ changedFlag s = false := by
  have hd := decode_id_of_no_pairs s (hasPair_of_not_mem 117 s h)
    (hasPair_of_not_mem 120 s h) (hasPair_of_not_mem 47 s h)
  exact ⟨hd, (changedFlag_false_iff s).mpr hd⟩

/-- Witness for C4 at the backslash-free string `hi`. -/
theorem decode_id_of_no_backslash_witness :
    ¬ 92 ∈ [104, 105] ∧
    (decode_unicode_escapes [104, 105] = [104, 105] ∧ changedFlag [104, 105] = false) :=
  ⟨by decide, decode_id_of_no_backslash [104, 105] (by decide)⟩

/-- Claim C5: control-character escapes are never interpreted or altered —
any string each of whose backslashes is immediately followed by `n`, `r` or
`t` is returned unchanged with the change flag false; in particular (see the
witness) `line1\nline2` with a literal backslash-n is unchanged. -/
theorem control_escapes_untouched (s : List Nat) (h : ctlEscapesOnly s = true) :
    decode_unicode_escapes s = s ∧ changedFlag s = false := by
  have hd := decode_id_of_no_pairs s
    (hasPair_of_ctl 117 (by decide) (by decide) (by decide) s h)
    (hasPair_of_ctl 120 (by decide) (by decide) (by decide) s h)
    (hasPair_of_ctl 47 (by decide) (by decide) (by decide) s h)
  exact ⟨hd, (changedFlag_false_iff s).mpr hd⟩

/-- Witness for C5 at `line1\nline2`: returned unchanged, change flag false. -/
theorem control_escapes_untouched_witness :
    ctlEscapesOnly line1nline2 = true ∧
    (decode_unicode_escapes line1nline2 = line1nline2 ∧
      changedFlag line1nline2 = false) :=
  ⟨by decide, control_escapes_untouched line1nline2 (by decide)⟩

/-- Claim C6: spans like `\uZZZZ` or a `\x` not followed by two hex digits are
left in place — a string in which neither regex matches anywhere and which
has no escaped slash is returned unchanged with the change flag false; the
witness instantiates this at `\uZZZZ`. -/
theorem invalid_escapes_left_in_place (s : List Nat)
    (h1 : hasUEscape s = false) (h2 : hasXEscape s = false)
    (h3 : hasPair 92 47 s = false) :
    decode_unicode_escapes s = s ∧ changedFlag s = false := by
  have hd : decode_unicode_escapes s = s := by
    rw [decode_eq_passes, substU_of_no_uescape s h1, substX_of_no_xescape s h2,
      replaceSlash_of_no_pair s h3]
  exact ⟨hd, (changedFlag_false_iff s).mpr hd⟩

/-- Witness for C6 at `\uZZZZ`: the span is kept, no change is reported. -/
theorem invalid_escapes_left_in_place_witness :
    (hasUEscape uzzzz = false ∧ hasXEscape uzzzz = false ∧
      hasPair 92 47 uzzzz = false) ∧
    (decode_unicode_escapes uzzzz = uzzzz ∧ changedFlag uzzzz = false) :=
  ⟨by decide, invalid_escapes_left_in_place uzzzz (by decide) (by decide) (by decide)⟩

/-- Claim C7: the change flag is true iff decoding changed the text by value;
a sibling file named `<stem>_decoded<suffix>` holding the decoded text is
written exactly when the flag is true, and an unchanged file is skipped with
nothing written. -/
theorem write_iff_changed (stem suffix content : List Nat) :
    ((process_file stem suffix (FileEvent.content content)).1.isSome ↔
      changedFlag content = true) ∧
    (changedFlag content = true ↔ decode_unicode_escapes content ≠ content) ∧
    (changedFlag content = true →
      process_file stem suffix (FileEvent.content content) =
        (some ⟨outStem stem ++ suffix, decode_unicode_escapes content⟩, PyVal.pyTrue)) ∧
    (changedFlag content = false →
      process_file stem suffix (FileEvent.content content) = (none, PyVal.pyFalse)) := by
  have hiff : changedFlag content = true ↔ decode_unicode_escapes content ≠ content := by
    simp [changedFlag]
  by_cases hb : decode_unicode_escapes content = content
  · have hflag : changedFlag content = false := by simp [changedFlag, hb]
    refine ⟨?_, hiff, ?_, ?_⟩
    · simp [process_file, hb, hflag]
    · intro hc
      rw [hflag] at hc
      exact absurd hc (by decide)
    · intro _
      simp [process_file, hb]
  · have hflag : changedFlag content = true := hiff.mpr hb
    refine ⟨?_, hiff, ?_, ?_⟩
    · simp [process_file, hb, hflag]
    · intro _
      simp [process_file, hb]
    · intro hc
      rw [hflag] at hc
      exact absurd hc (by decide)

/-- Witness for C7 at stem `a`, empty suffix, content `\/`: the content
changes, so the sibling `a_decoded` is written with the decoded text. -/
theorem write_iff_changed_witness :
    changedFlag [92, 47] = true ∧
    process_file [97] [] (FileEvent.content [92, 47]) =
      (some ⟨outStem [97] ++ [], decode_unicode_escapes [92, 47]⟩, PyVal.pyTrue) :=
  ⟨by decide, (write_iff_changed [97] [] [92, 47]).2.2.1 (by decide)⟩

/-- Claim C8: no exception escapes `decode_unicode_escapes`.  Even with the
per-match handlers stripped, each regex pass returns normally on every input
(the pattern constrains the digits, so `chr` is always in range), hence the
pass-level handlers never fire and the exception-level model of the whole
function returns `Except.ok` of the pure result for every input string. -/
theorem decode_never_raises (s : List Nat) :
    decodeE s = Except.ok (decode_unicode_escapes s) ∧
    substUE s = Except.ok (substU s) ∧
    substXE s = Except.ok (substX s) :=
  ⟨decodeE_eq_ok s, substUE_ok s, substXE_ok s⟩

/-- Claim C9 is false as stated: for stem `a` the generated base name
`a_decoded` does not contain the hyphen marker `-decoded` that the claim
names — the filter of `main` actually tests the underscore marker
`_decoded`, which it does contain. -/
theorem hyphen_marker_not_in_output_name :
    containsSub hyphenMarker (outStem [97]) = false ∧
    skipCheck (outStem [97]) = true := by decide

/-- Claim C9 (amended): the marker is `_decoded` with an underscore — every
generated base name `<stem>_decoded` contains the `_decoded` substring that
`main`'s selection step tests, so a file written by one run is skipped by a
later run. -/
theorem output_name_skipped_by_marker (stem : List Nat) :
    skipCheck (outStem stem) = true := by
  unfold skipCheck outStem
  exact containsSub_suffix decodedMarker stem (by decide)

/-- Claim C10: decoding never lengthens the text — each replaced span (6, 4 or
2 characters) becomes one character (or is kept whole), and all other
characters are copied. -/
theorem decode_length_le (s : List Nat) :
    (decode_unicode_escapes s).length ≤ s.length := by
  rw [decode_eq_passes]
  calc (replaceSlash (substX (substU s))).length
      ≤ (substX (substU s)).length := replaceSlash_length_le _
    _ ≤ (substU s).length := substX_length_le _
    _ ≤ s.length := substU_length_le _
